import Mathlib

/-!
Verification of the HWGBeritaAcara stock-mutation application against its
specification.  The development shallowly embeds two cores of the repository:

* the receive-reconciliation flow (`src/modules/mutasi/router.py`
  `mutasi_receive`, `src/modules/mutasi/repository.py`
  `MutasiRepository.update_receive`, and the helpers in
  `src/modules/mutasi/services.py`), and
* the token-lifecycle engine and catalog fetcher of
  `src/core/esb_service.py` (`_ensure_access_token`, `_mask_token`,
  `fetch_all_products`).

Python floats are modelled as rationals (ℚ), Python `None`/falsy strings as
the empty string or `Option`, and the external world (database, HTTP auth
endpoints, sheet-backed credential store) as explicit environment records.
Database writes are modelled as explicit operation traces so that frame
conditions ("no other row is touched") can be stated.
-/

namespace HWG

/-! ## Character-level string helpers

Python string slicing, `strip`, `upper`, and `replace` act on code points;
we mirror them on the `List Char` data of a `String`. -/

/-- Python `s[:n]` — the first `n` code points of `s`. -/
def strTake (s : String) (n : ℕ) : String :=
  ⟨s.data.take n⟩

/-- Python `s[-n:]` for `n ≥ 1` — the last `n` code points (the whole string
when it is shorter than `n`). -/
def strTakeRight (s : String) (n : ℕ) : String :=
  ⟨s.data.drop (s.data.length - n)⟩

/-- Python `str.strip()` restricted to ASCII whitespace. -/
def strTrim (s : String) : String :=
  ⟨((s.data.dropWhile Char.isWhitespace).reverse.dropWhile Char.isWhitespace).reverse⟩

/-- Python `str.upper()` (ASCII part, which is all the code uses). -/
def strUpper (s : String) : String :=
  ⟨s.data.map Char.toUpper⟩

/-- Python `str.replace(",", ".")`. -/
def strCommaToDot (s : String) : String :=
  ⟨s.data.map (fun c => if c = ',' then '.' else c)⟩

/-- Numeric value of a digit string (most significant first). -/
def digitsVal (l : List Char) : ℕ :=
  l.foldl (fun n c => n * 10 + (c.toNat - '0'.toNat)) 0

/-- Model of Python `float(str)` on decimal literals: optional sign, digits
with an optional decimal point (at least one digit overall), optional
exponent part.  Returns `none` exactly when Python raises `ValueError` on
such inputs (the special forms `inf`/`nan`/underscored digits are outside
the inputs this development reasons about). -/
def pyFloat? (s : String) : Option ℚ :=
  let cs₀ := s.data
  let sgn : ℚ × List Char :=
    match cs₀ with
    | '+' :: r => (1, r)
    | '-' :: r => (-1, r)
    | _ => (1, cs₀)
  let ds := sgn.2.takeWhile Char.isDigit
  let r₁ := sgn.2.dropWhile Char.isDigit
  let fsr : List Char × List Char :=
    match r₁ with
    | '.' :: r => (r.takeWhile Char.isDigit, r.dropWhile Char.isDigit)
    | _ => ([], r₁)
  let fs := fsr.1
  if ds.isEmpty ∧ fs.isEmpty then none
  else
    let mant : ℚ := sgn.1 * ((digitsVal ds : ℚ) + (digitsVal fs : ℚ) / (10 : ℚ) ^ fs.length)
    match fsr.2 with
    | [] => some mant
    | c :: r₃ =>
      if c = 'e' ∨ c = 'E' then
        let esgn : Bool × List Char :=
          match r₃ with
          | '+' :: r => (false, r)
          | '-' :: r => (true, r)
          | _ => (false, r₃)
        let es := esgn.2.takeWhile Char.isDigit
        let r₅ := esgn.2.dropWhile Char.isDigit
        if es.isEmpty ∨ ¬ r₅.isEmpty then none
        else some (if esgn.1 then mant / (10 : ℚ) ^ digitsVal es else mant * (10 : ℚ) ^ digitsVal es)
      else none

/-! ## `src/modules/mutasi/services.py` helpers -/

/-- `parse_decimal` from `src/modules/mutasi/services.py`: coerce the raw form
value to a string (missing → `""`), strip it, return `0.0` when empty,
otherwise swap `","` for `"."` and try `float()`, returning `0.0` on
`ValueError`. -/
def parse_decimal (value : Option String) : ℚ :=
  let raw := strTrim (value.getD "")
  if raw = "" then 0
  else
    match pyFloat? (strCommaToDot raw) with
    | some q => q
    | none => 0

/-- `normalize_status` from `src/modules/mutasi/services.py`:
`str(value or "").strip().upper()` with `"SENT"` as the empty default. -/
def normalize_status (value : String) : String :=
  let text := strUpper (strTrim value)
  if text = "" then "SENT" else text

/-! ## Sorting and deduplication of error messages

`mutasi_receive` reports `" ".join(sorted(set(errors)))`; we model the
`sorted(set(·))` part as an insertion sort over the deduplicated list. -/

/-- Boolean code-point-wise lexicographic `≤` on char lists (Python string
ordering). -/
def charListLe : List Char → List Char → Bool
  | [], _ => true
  | _ :: _, [] => false
  | a :: as, b :: bs => if a < b then true else if b < a then false else charListLe as bs

/-- Boolean lexicographic `≤` on strings. -/
def strLeB (s t : String) : Bool :=
  charListLe s.data t.data

/-- Insert a string into a sorted list of strings. -/
def insertStr (s : String) : List String → List String
  | [] => [s]
  | t :: ts => if strLeB s t then s :: t :: ts else t :: insertStr s ts

/-- Insertion sort on strings (Python `sorted` on a list of strings). -/
def sortStrings (l : List String) : List String :=
  l.foldr insertStr []

/-! ## The reconciliation data model -/

/-- One `mutasi_lines` row as fetched by the receive handler
(`select("id,qty,qty_received,movement_type")`, filtered to
`movement_type = "masuk"`).  `id` is `none` when the row has no id; `qty`
and `qty_received` carry the stored quantities after the handler's
`float(... or 0)` coercion. -/
structure LineRow where
  id : Option ℕ
  qty : ℚ
  qty_received : ℚ
deriving DecidableEq

/-- One entry of the `updates` list built by the receive handler. -/
structure LineUpdate where
  id : ℕ
  qty_received : ℚ
deriving DecidableEq

/-- A `mutasi_header` update payload: the full payload carries the receiver
name and timestamp, the fallback payload only the status. -/
structure HeaderPayload where
  status : String
  received_by : Option String
  has_received_at : Bool
deriving DecidableEq

/-- A database write issued by the reconciliation flow.  `committed` is false
for an attempt the backing store rejected (the schema-compatibility retry
path of `MutasiRepository.update_receive`). -/
inductive DbOp where
  | lineUpdate (lineId : ℕ) (headerId : String) (qty_received : ℚ)
  | headerUpdate (headerId : String) (payload : HeaderPayload) (committed : Bool)
deriving DecidableEq

/-- The `mutasi_header` fields the receive handler looks at. -/
structure MutasiHeader where
  status : String
  outlet_penerima_id : Option String
  outlet_penerima : Option String
deriving DecidableEq

/-- Outcome of a receive request, mirroring the distinct redirects of
`mutasi_receive` in `src/modules/mutasi/router.py`.  `alreadyReceived` is the
`status=warning` "Mutasi ini sudah diterima." redirect; `validationError`
carries the aggregated message of the `status=error` redirect. -/
inductive ReceiveResult where
  | notFound
  | accessDenied
  | alreadyReceived
  | noLines
  | validationError (message : String)
  | dbError
  | success (statusKey : String)
deriving DecidableEq

/-- Accumulated result of the per-line validation loop. -/
structure ValidationOut where
  errors : List String
  updates : List LineUpdate
  totalSent : ℚ
  totalReceived : ℚ
deriving DecidableEq

/-- The per-line validation loop of `mutasi_receive`
(`src/modules/mutasi/router.py` lines 425-441): a falsy line id (missing or
zero, per Python truthiness), a negative parsed quantity, or a parsed
quantity above the sent quantity each append an error and skip the line;
otherwise the line contributes to both totals and to the update list.  The
form field for line `i` is `qty_received_{i}`. -/
def validateLines : List LineRow → (ℕ → Option String) → ValidationOut
  | [], _ => ⟨[], [], 0, 0⟩
  | line :: rest, form =>
    let v := validateLines rest form
    match line.id with
    | none =>
      ⟨"ID item mutasi tidak ditemukan." :: v.errors, v.updates, v.totalSent, v.totalReceived⟩
    | some lineId =>
      if lineId = 0 then
        ⟨"ID item mutasi tidak ditemukan." :: v.errors, v.updates, v.totalSent, v.totalReceived⟩
      else
        let q := parse_decimal (form lineId)
        if q < 0 then
          ⟨"Qty terima tidak boleh minus." :: v.errors, v.updates, v.totalSent, v.totalReceived⟩
        else if q > line.qty then
          ⟨"Qty terima tidak boleh melebihi qty kirim." :: v.errors, v.updates, v.totalSent,
            v.totalReceived⟩
        else
          ⟨v.errors, ⟨lineId, q⟩ :: v.updates, line.qty + v.totalSent, q + v.totalReceived⟩

/-- `MutasiRepository.update_receive` (`src/modules/mutasi/repository.py`):
one `mutasi_lines` update per entry of `updates`, each filtered by both the
line id and the header id, then one `mutasi_header` update with the rich
payload, retried with the fallback payload when the first attempt raises.
`richOk`/`fallbackOk` model whether the backing store accepts each header
attempt; the boolean result is false when the exception escapes. -/
def update_receive (mutasiId : String) (updates : List LineUpdate)
    (update_payload fallback_payload : HeaderPayload) (richOk fallbackOk : Bool) :
    Bool × List DbOp :=
  let lineOps := updates.map fun u => DbOp.lineUpdate u.id mutasiId u.qty_received
  if richOk then
    (true, lineOps ++ [DbOp.headerUpdate mutasiId update_payload true])
  else if fallbackOk then
    (true, lineOps ++ [DbOp.headerUpdate mutasiId update_payload false,
      DbOp.headerUpdate mutasiId fallback_payload true])
  else
    (false, lineOps ++ [DbOp.headerUpdate mutasiId update_payload false,
      DbOp.headerUpdate mutasiId fallback_payload false])

/-- The receive handler `mutasi_receive` of `src/modules/mutasi/router.py`
from the point where the header and its incoming ("masuk") lines are in hand.
`resolvedPenerimaId` is the value of the external
`resolve_outlet_id(header.outlet_penerima_id, header.outlet_penerima)` call;
`form` maps a line id to the submitted `qty_received_{id}` field;
`receiverName` is `profile.full_name or user.email`.  The second component is
the trace of database writes issued. -/
def mutasi_receive (header? : Option MutasiHeader) (userOutletId resolvedPenerimaId : String)
    (lines : List LineRow) (form : ℕ → Option String) (receiverName : String)
    (mutasiId : String) (richOk fallbackOk : Bool) : ReceiveResult × List DbOp :=
  match header? with
  | none => (ReceiveResult.notFound, [])
  | some header =>
    if userOutletId = "" ∨ userOutletId ≠ resolvedPenerimaId then
      (ReceiveResult.accessDenied, [])
    else if normalize_status header.status = "RECEIVED" then
      (ReceiveResult.alreadyReceived, [])
    else if lines = [] then
      (ReceiveResult.noLines, [])
    else
      let v := validateLines lines form
      if v.errors ≠ [] then
        (ReceiveResult.validationError (String.intercalate " " (sortStrings v.errors.dedup)), [])
      else
        let statusKey :=
          if |v.totalReceived - v.totalSent| < (1 : ℚ) / 1000000 then "RECEIVED" else "PARTIAL"
        let update_payload : HeaderPayload := ⟨statusKey, some receiverName, true⟩
        let fallback_payload : HeaderPayload := ⟨statusKey, none, false⟩
        let out := update_receive mutasiId v.updates update_payload fallback_payload richOk fallbackOk
        if out.1 then (ReceiveResult.success statusKey, out.2)
        else (ReceiveResult.dbError, out.2)

/-- Number of committed header writes in a trace. -/
def committedHeaderCount (ops : List DbOp) : ℕ :=
  ops.countP fun op =>
    match op with
    | DbOp.headerUpdate _ _ true => true
    | _ => false

/-! ## The token-lifecycle engine of `src/core/esb_service.py`

The engine is embedded as a pure transition function on an explicit state
record.  Python `time.time()` is the environment's `now`; Python `None` and
falsy strings are the empty string; `token_timestamp_epoch = 0` plays the
falsy timestamp, so Python's `age is None` is `token_timestamp_epoch = 0`
here.  The outcome of each outbound call (sheet fetch, `/auth/refresh`,
`/auth/login`) is provided by the environment; the effects record counts how
many of each call the engine issued. -/

/-- A session payload as produced by `EsbService._extract_session_payload`
for a successful login or refresh response. -/
structure EsbSession where
  access_token : String
  refresh_token : String
  company_code : String
  company_name : String
deriving DecidableEq

/-- The credential record built by `build_esb_credentials` from the sheet
range `E2:E11`, with `token_timestamp` already run through
`_parse_timestamp` (0 when missing or unparseable). -/
structure SheetCreds where
  username : String
  password : String
  company_code : String
  company_name : String
  access_token : String
  refresh_token : String
  token_timestamp_parsed : ℚ
deriving DecidableEq

/-- The `ESBConfigGAS` config-manager fields consulted by
`_load_config_if_needed`; `load_ok` is whether `load_config()` succeeds and
returns truthy. -/
structure ConfigData where
  load_ok : Bool
  username : String
  password : String
  company_code : String
  company_name : String
  access_token : String
  refresh_token : String
  token_timestamp_epoch : ℚ
deriving DecidableEq

/-- The mutable per-instance state of `EsbService` that
`_ensure_access_token` reads and writes. -/
structure EsbState where
  username : String
  password : String
  company_code : String
  company_name : String
  token : String
  token_expiry : ℚ
  access_token : String
  refresh_token : String
  token_timestamp_epoch : ℚ
  config_loaded : Bool
deriving DecidableEq

/-- The TTL constructor arguments of `EsbService` (already integers, so
`_coerce_int` is the identity on them). -/
structure EsbTimes where
  token_ttl_sec : ℤ
  token_buffer_sec : ℤ
  refresh_ttl_sec : ℤ
deriving DecidableEq

/-- Which backing store a rotated session is persisted to. -/
inductive TargetKind where
  | sheet
  | config
deriving DecidableEq

/-- The external world of one `_ensure_access_token` call: the wall clock,
whether a sheet store is configured, what its fetch returns (`none` models a
raised fetch exception), the optional config manager, and the results of the
refresh and login endpoints (`none` models a raised request exception). -/
structure EsbEnv where
  now : ℚ
  storeConfigured : Bool
  sheetFetch : Option SheetCreds
  configManager : Option ConfigData
  refreshResult : Option EsbSession
  loginResult : Option EsbSession
deriving DecidableEq

/-- Counts of outbound calls issued during one `_ensure_access_token` call. -/
structure EsbEffects where
  storeReads : ℕ
  refreshCalls : ℕ
  loginCalls : ℕ
  persistWrites : ℕ
deriving DecidableEq

/-- No calls at all. -/
def EsbEffects.zero : EsbEffects := ⟨0, 0, 0, 0⟩

/-- The errors `_ensure_access_token` can raise: the configuration error
`RuntimeError("ESB credentials not configured.")`, a login request failure,
and `_apply_session`'s `RuntimeError("Access Token kosong.")`. -/
inductive EsbError where
  | credsNotConfigured
  | loginFailed
  | emptyAccessToken
deriving DecidableEq

/-- `EsbService._load_config_if_needed`: a no-op without a config manager or
when already loaded; otherwise marks loaded and, when `load_config()`
succeeds, merges the config fields (`self.username or cfg.username`,
`cfg.company_code or self.company_code`, ...). -/
def load_config_if_needed (cm : Option ConfigData) (st : EsbState) : EsbState :=
  match cm with
  | none => st
  | some cfg =>
    if st.config_loaded then st
    else
      let st₁ := { st with config_loaded := true }
      if ¬ cfg.load_ok then st₁
      else
        { st₁ with
          username := if st₁.username ≠ "" then st₁.username else cfg.username
          password := if st₁.password ≠ "" then st₁.password else cfg.password
          company_code := if cfg.company_code ≠ "" then cfg.company_code else st₁.company_code
          company_name := if cfg.company_name ≠ "" then cfg.company_name else st₁.company_name
          access_token := if cfg.access_token ≠ "" then cfg.access_token else st₁.access_token
          refresh_token := if cfg.refresh_token ≠ "" then cfg.refresh_token else st₁.refresh_token
          token_timestamp_epoch :=
            if cfg.token_timestamp_epoch ≠ 0 then cfg.token_timestamp_epoch
            else st₁.token_timestamp_epoch }

/-- Step 2 of `_ensure_access_token`: `_load_sheet_credentials` plus the
field-by-field `or`-merge, falling back to `_load_config_if_needed` when the
sheet yields nothing.  Returns the merged state and the persist target (the
sheet store when one is configured — even when its fetch failed — otherwise
the config manager once loaded). -/
def loadAndMerge (env : EsbEnv) (st : EsbState) : EsbState × Option TargetKind :=
  if env.storeConfigured then
    match env.sheetFetch with
    | some c =>
      ({ st with
          username := if c.username ≠ "" then c.username else st.username
          password := if c.password ≠ "" then c.password else st.password
          company_code := if c.company_code ≠ "" then c.company_code else st.company_code
          company_name := if c.company_name ≠ "" then c.company_name else st.company_name
          access_token := if c.access_token ≠ "" then c.access_token else st.access_token
          refresh_token := if c.refresh_token ≠ "" then c.refresh_token else st.refresh_token
          token_timestamp_epoch :=
            if c.token_timestamp_parsed ≠ 0 then c.token_timestamp_parsed
            else st.token_timestamp_epoch },
        some TargetKind.sheet)
    | none => (load_config_if_needed env.configManager st, some TargetKind.sheet)
  else
    let st₁ := load_config_if_needed env.configManager st
    (st₁,
      if env.configManager.isSome ∧ st₁.config_loaded then some TargetKind.config else none)

/-- The state after the credential reload and merge of `_ensure_access_token`. -/
def mergedState (env : EsbEnv) (st : EsbState) : EsbState :=
  (loadAndMerge env st).1

/-- `max(token_ttl_sec - token_buffer_sec, 0)` as a rational number of
seconds. -/
def access_valid_sec (times : EsbTimes) : ℚ :=
  ((max (times.token_ttl_sec - times.token_buffer_sec) 0 : ℤ) : ℚ)

/-- `EsbService._apply_session`: raises when the access token is empty,
otherwise installs the session in memory (keeping the old refresh token and
company fields when the session omits them), arms `token_expiry`, stamps
`token_timestamp_epoch = now`, and persists to the target when there is one
(counted; persist failures are swallowed by `_persist_session`). -/
def apply_session (times : EsbTimes) (now : ℚ) (sess : EsbSession)
    (target : Option TargetKind) (st : EsbState) : Except EsbError (EsbState × ℕ) :=
  if sess.access_token = "" then Except.error EsbError.emptyAccessToken
  else
    Except.ok
      ({ st with
          access_token := sess.access_token
          refresh_token := if sess.refresh_token ≠ "" then sess.refresh_token else st.refresh_token
          company_code := if sess.company_code ≠ "" then sess.company_code else st.company_code
          company_name := if sess.company_name ≠ "" then sess.company_name else st.company_name
          token := sess.access_token
          token_expiry := now + access_valid_sec times
          token_timestamp_epoch := now },
        if target.isSome then 1 else 0)

/-- The stored access token adopted by the cross-process reuse path of
`_ensure_access_token` (`self.access_token or self.token` after the merge). -/
def stored_access_token (env : EsbEnv) (st : EsbState) : String :=
  if (mergedState env st).access_token ≠ "" then (mergedState env st).access_token
  else (mergedState env st).token

/-- `now - token_timestamp` over the merged state; the Python `age` is
`None` exactly when the merged `token_timestamp_epoch` is 0. -/
def token_age (env : EsbEnv) (st : EsbState) : ℚ :=
  env.now - (mergedState env st).token_timestamp_epoch

/-- Step 5 of `_ensure_access_token`: require username/password (else the
configuration error), call `/auth/login`, and apply+persist the session;
a request failure or an empty access token in the response propagates.
`reads`/`refreshes` carry the effects already incurred. -/
def login_phase (times : EsbTimes) (env : EsbEnv) (st₁ : EsbState)
    (target : Option TargetKind) (reads refreshes : ℕ) :
    Except EsbError EsbState × EsbEffects :=
  if st₁.username = "" ∨ st₁.password = "" then
    (Except.error EsbError.credsNotConfigured, ⟨reads, refreshes, 0, 0⟩)
  else
    match env.loginResult with
    | none => (Except.error EsbError.loginFailed, ⟨reads, refreshes, 1, 0⟩)
    | some sess =>
      match apply_session times env.now sess target st₁ with
      | Except.ok sp => (Except.ok sp.1, ⟨reads, refreshes, 1, sp.2⟩)
      | Except.error e => (Except.error e, ⟨reads, refreshes, 1, 0⟩)

/-- Step 4 of `_ensure_access_token`: call `/auth/refresh` once; on success
apply+persist and return; on any failure (request exception or empty access
token) swallow it and fall through to the login phase. -/
def refresh_phase (times : EsbTimes) (env : EsbEnv) (st₁ : EsbState)
    (target : Option TargetKind) (reads : ℕ) :
    Except EsbError EsbState × EsbEffects :=
  match env.refreshResult with
  | some sess =>
    match apply_session times env.now sess target st₁ with
    | Except.ok sp => (Except.ok sp.1, ⟨reads, 1, 0, sp.2⟩)
    | Except.error _ => login_phase times env st₁ target reads 1
  | none => login_phase times env st₁ target reads 1

/-- `EsbService._ensure_access_token`.  Step 1: without `force_login`, a
truthy in-memory token with `now < token_expiry` is a no-op.  Step 2: reload
and merge the backing credentials.  Step 3: without `force_login`, adopt the
stored access token when its age is known, nonnegative and inside the
access-valid window.  Step 4: without `force_login`, with a refresh token
whose age is unknown or below `refresh_ttl_sec`, run the refresh phase.
Step 5: otherwise the login phase.  The first component is the resulting
state or the raised error; the second counts the outbound calls issued. -/
def ensure_access_token (times : EsbTimes) (env : EsbEnv) (st : EsbState)
    (force_login : Bool) : Except EsbError EsbState × EsbEffects :=
  if ¬ force_login ∧ st.token ≠ "" ∧ env.now < st.token_expiry then
    (Except.ok st, EsbEffects.zero)
  else
    let reads : ℕ := if env.storeConfigured then 1 else 0
    let st₁ := mergedState env st
    let target := (loadAndMerge env st).2
    if ¬ force_login ∧ stored_access_token env st ≠ "" ∧ st₁.token_timestamp_epoch ≠ 0 ∧
        0 ≤ token_age env st ∧ token_age env st < access_valid_sec times then
      (Except.ok
        { st₁ with
            token := stored_access_token env st
            token_expiry := env.now + max (access_valid_sec times - token_age env st) 0 },
        ⟨reads, 0, 0, 0⟩)
    else if ¬ force_login ∧ st₁.refresh_token ≠ "" ∧
        (st₁.token_timestamp_epoch = 0 ∨ token_age env st < (times.refresh_ttl_sec : ℚ)) then
      refresh_phase times env st₁ target reads
    else
      login_phase times env st₁ target reads 0

/-! ## `_mask_token` (`src/core/esb_service.py` lines 62-70) -/

/-- `_mask_token(token, pre, suf)`: empty in, empty out; a token no longer
than `pre` is replaced by that many asterisks; otherwise the first `pre`
code points, `"..."`, and the last `suf` code points. -/
def mask_token (token : String) (pre suf : ℕ) : String :=
  let text := token
  if text = "" then ""
  else if text.length ≤ pre + suf then
    if text.length ≤ pre then String.mk (List.replicate text.length '*')
    else strTake text pre ++ "..." ++ strTakeRight text suf
  else strTake text pre ++ "..." ++ strTakeRight text suf

/-! ## `fetch_all_products` (`src/core/esb_service.py` lines 479-545)

The pagination loop, for runs in which every page request and every detail
lookup succeeds.  `pages` gives the `result.data` list of each page number,
`detail` the outcome of `get_product_detail` for a product id.  The loop is
written with explicit fuel; any fuel at least the number of pages actually
visited produces the run the unbounded Python `while True` performs. -/

/-- One item of a `/product/list` page. -/
structure EsbItem where
  productID : ℕ
  productName : String
  productCode : String
deriving DecidableEq

/-- The `{uom_name, price}` outcome of `get_product_detail`. -/
structure EsbDetail where
  uom_name : String
  price : ℚ
deriving DecidableEq

/-- One merged product entry appended by the loop body. -/
structure EsbProduct where
  id : ℕ
  name : String
  default_code : String
  uom_name : String
  harga : ℚ
deriving DecidableEq

/-- The loop body over one page's items: entries with a falsy `productID`
are skipped, the rest are enriched via the detail lookup. -/
def buildProducts (detail : ℕ → EsbDetail) (items : List EsbItem) : List EsbProduct :=
  items.filterMap fun it =>
    if it.productID = 0 then none
    else some ⟨it.productID, it.productName, it.productCode,
      (detail it.productID).uom_name, (detail it.productID).price⟩

/-- The pagination loop of `fetch_all_products`, returning the accumulated
products and the number of `/product/list` requests issued: request the
page; stop on an empty page; append the page's products; stop when the page
is shorter than `limit`; otherwise continue with the next page. -/
def fetchPages (pages : ℕ → List EsbItem) (detail : ℕ → EsbDetail) (limit : ℕ) :
    ℕ → ℕ → List EsbProduct → List EsbProduct × ℕ
  | 0, _, acc => (acc, 0)
  | fuel + 1, page, acc =>
    let data := pages page
    if data = [] then (acc, 1)
    else
      let acc₁ := acc ++ buildProducts detail data
      if data.length < limit then (acc₁, 1)
      else
        let rec' := fetchPages pages detail limit fuel (page + 1) acc₁
        (rec'.1, rec'.2 + 1)

/-- `fetch_all_products`: serve the list cache when it is non-empty and
unexpired, otherwise run the pagination loop from page 1. -/
def fetch_all_products (pages : ℕ → List EsbItem) (detail : ℕ → EsbDetail) (limit : ℕ)
    (cacheData : List EsbProduct) (cacheExpires now : ℚ) (fuel : ℕ) :
    List EsbProduct × ℕ :=
  if cacheData ≠ [] ∧ now < cacheExpires then (cacheData, 0)
  else fetchPages pages detail limit fuel 1 []

/-- The fake endpoint of the pagination property: pages `1..k` hold exactly
`limit` items each, page `k+1` holds the remaining `r` items, later pages
are empty; every item has a truthy (nonzero) product id. -/
def scenarioPages (k r limit : ℕ) : ℕ → List EsbItem :=
  fun p =>
    if 1 ≤ p ∧ p ≤ k then (List.range limit).map fun i => ⟨(p - 1) * limit + i + 1, "", ""⟩
    else if p = k + 1 then (List.range r).map fun i => ⟨k * limit + i + 1, "", ""⟩
    else []

/-! ## Helper functions for the theorems -/

/-- The update the handler plans for a validated line. -/
def plannedUpdate (form : ℕ → Option String) (l : LineRow) : LineUpdate :=
  ⟨l.id.getD 0, parse_decimal (form (l.id.getD 0))⟩

/-- The parsed submitted received quantity of a line. -/
def submittedQty (form : ℕ → Option String) (l : LineRow) : ℚ :=
  parse_decimal (form (l.id.getD 0))

/-- A line that passes all per-line checks of the receive handler: a truthy
id, a nonnegative parsed quantity, and no overshoot of the sent quantity. -/
def lineValid (form : ℕ → Option String) (l : LineRow) : Prop :=
  ∃ lid, l.id = some lid ∧ lid ≠ 0 ∧ ¬ parse_decimal (form lid) < 0 ∧
    ¬ parse_decimal (form lid) > l.qty

end HWG

-- Concrete evaluations of the embedded helpers.
example : HWG.parse_decimal (some "10") = 10 := by with_unfolding_all decide
example : HWG.parse_decimal (some "10,5") = 21 / 2 := by with_unfolding_all decide
example : HWG.parse_decimal (some "abc") = 0 := by with_unfolding_all decide
example : HWG.parse_decimal none = 0 := by with_unfolding_all decide
example : HWG.parse_decimal (some " 1.5e1 ") = 15 := by with_unfolding_all decide
example : HWG.parse_decimal (some ".") = 0 := by with_unfolding_all decide
example : HWG.normalize_status " sent " = "SENT" := by decide
example : HWG.normalize_status "" = "SENT" := by decide
example : HWG.sortStrings ["b", "a", "b"] = ["a", "b", "b"] := by decide

namespace HWG

/-! ## Properties of the insertion sort used for error aggregation -/

theorem mem_insertStr {a s : String} {l : List String} :
    a ∈ insertStr s l ↔ a = s ∨ a ∈ l := by
  induction l with
  | nil => simp [insertStr]
  | cons t ts ih =>
    by_cases h : strLeB s t
    · simp [insertStr, h]
    · simp [insertStr, h, ih]
      tauto

theorem insertStr_nodup {s : String} {l : List String} (h : l.Nodup) (hs : s ∉ l) :
    (insertStr s l).Nodup := by
  induction l with
  | nil => simp [insertStr]
  | cons t ts ih =>
    rcases List.nodup_cons.1 h with ⟨ht, hts⟩
    by_cases hle : strLeB s t
    · simp only [insertStr, hle, if_true]
      exact List.nodup_cons.2 ⟨hs, h⟩
    · simp only [insertStr, hle, if_false]
      refine List.nodup_cons.2 ⟨?_, ih hts (fun hm => hs (List.mem_cons_of_mem _ hm))⟩
      intro hmem
      rcases mem_insertStr.1 hmem with he | hm
      · exact hs (he ▸ List.mem_cons_self _ _)
      · exact ht hm

theorem mem_sortStrings {a : String} {l : List String} : a ∈ sortStrings l ↔ a ∈ l := by
  induction l with
  | nil => simp [sortStrings]
  | cons b bs ih =>
    simp only [sortStrings, List.foldr] at ih ⊢
    rw [mem_insertStr, ih]
    simp

theorem sortStrings_nodup {l : List String} (h : l.Nodup) : (sortStrings l).Nodup := by
  induction l with
  | nil => simp [sortStrings]
  | cons s ts ih =>
    rcases List.nodup_cons.1 h with ⟨hs, hts⟩
    have : s ∉ sortStrings ts := fun hm => hs (mem_sortStrings.1 hm)
    exact insertStr_nodup (ih hts) this

/-! ## C7: token masking -/

/-- C7: with prefix 6 and suffix 4, `_mask_token` fully redacts a token of
length at most 6 to asterisks of the same length, and renders any longer
token as its first 6 code points, the `"..."` marker, and its last 4 code
points — so the token never appears in full; in particular the 16-character
example masks to `"abcdef...mnop"` and `"ab"` masks to `"**"`. -/
theorem mask_token_spec :
    (∀ t : String, t.length ≤ 6 → mask_token t 6 4 = String.mk (List.replicate t.length '*'))
    ∧ (∀ t : String, 6 < t.length →
        mask_token t 6 4 = strTake t 6 ++ "..." ++ strTakeRight t 4)
    ∧ mask_token "abcdefghijklmnop" 6 4 = "abcdef...mnop"
    ∧ mask_token "ab" 6 4 = "**" := by
  refine ⟨?_, ?_, by decide, by decide⟩
  · intro t h
    by_cases h0 : t = ""
    · subst h0; rfl
    · have h10 : t.length ≤ 6 + 4 := by omega
      simp [mask_token, h0, h10, h]
  · intro t h
    have h0 : t ≠ "" := by
      intro e
      rw [e] at h
      exact absurd h (by decide)
    have h6 : ¬ t.length ≤ 6 := by omega
    by_cases h10 : t.length ≤ 6 + 4
    · simp [mask_token, h0, h10, h6]
    · simp [mask_token, h0, h10]

/-- Witness for C7 at concrete tokens of length 2 and 8. -/
theorem mask_token_spec_witness :
    mask_token "ab" 6 4 = "**"
    ∧ mask_token "abcdefgh" 6 4 = strTake "abcdefgh" 6 ++ "..." ++ strTakeRight "abcdefgh" 4 :=
  ⟨mask_token_spec.1 "ab" (by decide), mask_token_spec.2.1 "abcdefgh" (by decide)⟩

/-! ## C10: malformed received quantities default to zero -/

/-- C10: any submitted received-quantity string that is missing, blank after
stripping, or rejected by the float parser (after swapping `","` for `"."`)
makes `parse_decimal` return 0; such a line passes the per-line validation
whenever its sent quantity is nonnegative, contributing a zero received
quantity; and on a concrete mutation with sent quantity 10 and the malformed
input `"abc"` the reconciliation succeeds with status `PARTIAL` and a
committed zero-quantity line update instead of rejecting the input. -/
theorem parse_decimal_malformed_zero :
    (∀ value : Option String,
      strTrim (value.getD "") = "" ∨ pyFloat? (strCommaToDot (strTrim (value.getD ""))) = none →
      parse_decimal value = 0)
    ∧ (∀ line : LineRow, ∀ lineId : ℕ, ∀ form : ℕ → Option String,
        line.id = some lineId → lineId ≠ 0 → 0 ≤ line.qty → parse_decimal (form lineId) = 0 →
        validateLines [line] form = ⟨[], [⟨lineId, 0⟩], line.qty, 0⟩)
    ∧ mutasi_receive (some ⟨"SENT", none, none⟩) "O1" "O1" [⟨some 1, 10, 0⟩]
        (fun i => if i = 1 then some "abc" else none) "r" "M1" true true
      = (ReceiveResult.success "PARTIAL",
         [DbOp.lineUpdate 1 "M1" 0, DbOp.headerUpdate "M1" ⟨"PARTIAL", some "r", true⟩ true]) := by
  refine ⟨?_, ?_, by with_unfolding_all decide⟩
  · intro value h
    unfold parse_decimal
    rcases h with h | h
    · simp [h]
    · by_cases h0 : strTrim (value.getD "") = ""
      · simp [h0]
      · simp [h0, h]
  · intro line lineId form hid hid0 hq hz
    simp [validateLines, hid, hid0, hz, not_lt.2 hq]

/-- Witness for C10: the malformed strings `"abc"` and `""` and a missing
field all parse to zero, and a zero-received line against sent quantity 7
passes validation. -/
theorem parse_decimal_malformed_zero_witness :
    parse_decimal (some "abc") = 0
    ∧ parse_decimal none = 0
    ∧ validateLines [⟨some 2, 7, 0⟩] (fun _ => some "") =
        ⟨[], [⟨2, 0⟩], 7, 0⟩ :=
  ⟨parse_decimal_malformed_zero.1 (some "abc") (Or.inr (by with_unfolding_all decide)),
   parse_decimal_malformed_zero.1 none (Or.inl (by decide)),
   parse_decimal_malformed_zero.2.1 ⟨some 2, 7, 0⟩ 2 (fun _ => some "") rfl
     (by decide) (by with_unfolding_all decide) (by with_unfolding_all decide)⟩

/-! ## C3: RECEIVED is terminal -/

/-- C3: a receive request against a header whose normalized status is
`RECEIVED` issues no database write at all and is answered with either the
access-denied redirect or the "already received" state-conflict redirect
(the latter whenever the caller is the receiving outlet); neither outcome is
the validation-error outcome or a success. -/
theorem mutasi_receive_received_terminal
    (header : MutasiHeader) (h : normalize_status header.status = "RECEIVED")
    (userOutletId resolvedPenerimaId : String) (lines : List LineRow)
    (form : ℕ → Option String) (receiverName mutasiId : String) (richOk fallbackOk : Bool) :
    ((mutasi_receive (some header) userOutletId resolvedPenerimaId lines form
        receiverName mutasiId richOk fallbackOk).1 = ReceiveResult.accessDenied
      ∨ (mutasi_receive (some header) userOutletId resolvedPenerimaId lines form
          receiverName mutasiId richOk fallbackOk).1 = ReceiveResult.alreadyReceived)
    ∧ (mutasi_receive (some header) userOutletId resolvedPenerimaId lines form
        receiverName mutasiId richOk fallbackOk).2 = []
    ∧ (userOutletId ≠ "" → userOutletId = resolvedPenerimaId →
        (mutasi_receive (some header) userOutletId resolvedPenerimaId lines form
          receiverName mutasiId richOk fallbackOk).1 = ReceiveResult.alreadyReceived)
    ∧ (∀ m, (mutasi_receive (some header) userOutletId resolvedPenerimaId lines form
        receiverName mutasiId richOk fallbackOk).1 ≠ ReceiveResult.validationError m)
    ∧ (∀ k, (mutasi_receive (some header) userOutletId resolvedPenerimaId lines form
        receiverName mutasiId richOk fallbackOk).1 ≠ ReceiveResult.success k) := by
  by_cases hacc : userOutletId = "" ∨ userOutletId ≠ resolvedPenerimaId
  · refine ⟨Or.inl ?_, ?_, ?_, ?_, ?_⟩ <;>
      simp [mutasi_receive, hacc]
    intro h1 h2
    tauto
  · refine ⟨Or.inr ?_, ?_, ?_, ?_, ?_⟩ <;>
      simp [mutasi_receive, hacc, h]

/-- Witness for C3 at a concrete already-received mutation. -/
theorem mutasi_receive_received_terminal_witness :
    (mutasi_receive (some ⟨"RECEIVED", none, none⟩) "O1" "O1" [⟨some 1, 10, 10⟩]
        (fun _ => some "10") "r" "M1" true true).1 = ReceiveResult.alreadyReceived
    ∧ (mutasi_receive (some ⟨"RECEIVED", none, none⟩) "O1" "O1" [⟨some 1, 10, 10⟩]
        (fun _ => some "10") "r" "M1" true true).2 = [] :=
  have h := mutasi_receive_received_terminal ⟨"RECEIVED", none, none⟩ (by decide)
    "O1" "O1" [⟨some 1, 10, 10⟩] (fun _ => some "10") "r" "M1" true true
  ⟨h.2.2.1 (by decide) rfl, h.2.1⟩

/-! ## C2: invalid lines reject the whole request -/

theorem validateLines_errors_ne_nil {lines : List LineRow} {form : ℕ → Option String}
    {line : LineRow} {lineId : ℕ}
    (hmem : line ∈ lines) (hid : line.id = some lineId)
    (hbad : parse_decimal (form lineId) < 0 ∨ parse_decimal (form lineId) > line.qty) :
    (validateLines lines form).errors ≠ [] := by
  induction lines with
  | nil => cases hmem
  | cons a rest ih =>
    rcases List.mem_cons.1 hmem with he | hm
    · subst he
      simp only [validateLines, hid]
      by_cases h00 : lineId = 0
      · simp [h00]
      · by_cases h0 : parse_decimal (form lineId) < 0
        · simp [h00, h0]
        · rcases hbad with hb | hb
          · exact absurd hb h0
          · simp [h00, h0, hb]
    · have hrest := ih hm
      simp only [validateLines]
      cases hb : a.id with
      | none => simp
      | some lid₂ =>
        by_cases h00 : lid₂ = 0
        · simp [h00]
        · by_cases h0 : parse_decimal (form lid₂) < 0
          · simp [h00, h0]
          · by_cases h1 : parse_decimal (form lid₂) > a.qty
            · simp [h00, h0, h1]
            · simp [h00, h0, h1, hrest]

/-- C2: whenever some incoming line's submitted received quantity parses
negative or above that line's sent quantity, the receive request (made by
the receiving outlet against a non-`RECEIVED` header) commits no line update
and no header update — the write trace is empty — and the single outcome is
the validation-error redirect carrying the space-joined, sorted,
deduplicated collection of all per-line error messages. -/
theorem mutasi_receive_validation_atomic
    (header : MutasiHeader) (userOutletId resolvedPenerimaId : String)
    (lines : List LineRow) (form : ℕ → Option String)
    (receiverName mutasiId : String) (richOk fallbackOk : Bool)
    (line : LineRow) (lineId : ℕ)
    (hu : userOutletId ≠ "") (hur : userOutletId = resolvedPenerimaId)
    (hst : normalize_status header.status ≠ "RECEIVED")
    (hmem : line ∈ lines) (hid : line.id = some lineId)
    (hbad : parse_decimal (form lineId) < 0 ∨ parse_decimal (form lineId) > line.qty) :
    mutasi_receive (some header) userOutletId resolvedPenerimaId lines form receiverName
        mutasiId richOk fallbackOk
      = (ReceiveResult.validationError (String.intercalate " "
          (sortStrings (validateLines lines form).errors.dedup)), [])
    ∧ (sortStrings (validateLines lines form).errors.dedup).Nodup := by
  subst hur
  have hne : lines ≠ [] := List.ne_nil_of_mem hmem
  have herr := validateLines_errors_ne_nil hmem hid hbad
  exact ⟨by simp [mutasi_receive, hu, hst, hne, herr],
    sortStrings_nodup (List.nodup_dedup _)⟩

/-- Witness for C2: one line over-received (`12 > 10`) and one negative
(`-1`), reported together as one deduplicated sorted message with an empty
write trace. -/
theorem mutasi_receive_validation_atomic_witness :
    mutasi_receive (some ⟨"SENT", none, none⟩) "O1" "O1"
        [⟨some 1, 10, 0⟩, ⟨some 2, 5, 0⟩]
        (fun i => if i = 1 then some "12" else some "-1") "r" "M1" true true
      = (ReceiveResult.validationError (String.intercalate " "
          (sortStrings (validateLines [⟨some 1, 10, 0⟩, ⟨some 2, 5, 0⟩]
            (fun i => if i = 1 then some "12" else some "-1")).errors.dedup)), [])
    ∧ (sortStrings (validateLines [⟨some 1, 10, 0⟩, ⟨some 2, 5, 0⟩]
        (fun i => if i = 1 then some "12" else some "-1")).errors.dedup).Nodup :=
  mutasi_receive_validation_atomic ⟨"SENT", none, none⟩ "O1" "O1"
    [⟨some 1, 10, 0⟩, ⟨some 2, 5, 0⟩]
    (fun i => if i = 1 then some "12" else some "-1") "r" "M1" true true
    ⟨some 1, 10, 0⟩ 1 (by decide) rfl (by decide) (List.mem_cons_self _ _) rfl
    (Or.inr (by with_unfolding_all decide))

/-! ## C1 and C8: the committed reconciliation path -/

theorem validateLines_all_valid {lines : List LineRow} {form : ℕ → Option String}
    (h : ∀ l ∈ lines, lineValid form l) :
    validateLines lines form =
      ⟨[], lines.map (plannedUpdate form), (lines.map LineRow.qty).sum,
        (lines.map (submittedQty form)).sum⟩ := by
  induction lines with
  | nil => simp [validateLines]
  | cons a rest ih =>
    obtain ⟨lid, hid, hid0, hneg, hover⟩ := h a (List.mem_cons_self _ _)
    have hrest := ih (fun l hl => h l (List.mem_cons_of_mem _ hl))
    simp only [validateLines, hid, hrest]
    simp [hid0, hneg, hover, plannedUpdate, submittedQty, hid]

theorem update_receive_spec (mutasiId : String) (updates : List LineUpdate)
    (p fp : HeaderPayload) (richOk fallbackOk : Bool)
    (hdb : richOk = true ∨ fallbackOk = true) :
    (update_receive mutasiId updates p fp richOk fallbackOk).1 = true
    ∧ committedHeaderCount (update_receive mutasiId updates p fp richOk fallbackOk).2 = 1
    ∧ (∀ hid q c, DbOp.headerUpdate hid q c ∈
        (update_receive mutasiId updates p fp richOk fallbackOk).2 →
        hid = mutasiId ∧ (q = p ∨ q = fp))
    ∧ (∀ lid hid q, DbOp.lineUpdate lid hid q ∈
        (update_receive mutasiId updates p fp richOk fallbackOk).2 →
        hid = mutasiId ∧ ∃ u ∈ updates, u.id = lid ∧ u.qty_received = q)
    ∧ (∀ u ∈ updates, DbOp.lineUpdate u.id mutasiId u.qty_received ∈
        (update_receive mutasiId updates p fp richOk fallbackOk).2) := by
  have hcount : committedHeaderCount
      (updates.map fun u => DbOp.lineUpdate u.id mutasiId u.qty_received) = 0 := by
    simp only [committedHeaderCount, List.countP_eq_zero]
    intro op hop
    rcases List.mem_map.1 hop with ⟨u, _, rfl⟩
    simp
  rcases hdb with hdb | hdb
  · subst hdb
    refine ⟨rfl, ?_, ?_, ?_, ?_⟩
    · simp only [update_receive, if_true, committedHeaderCount, List.countP_append]
      simp only [committedHeaderCount] at hcount
      simp [hcount, List.countP_cons]
    · intro hid q c hmem
      simp only [update_receive, if_true, List.mem_append, List.mem_map,
        List.mem_singleton] at hmem
      rcases hmem with ⟨u, _, hu⟩ | hu
      · exact absurd hu (by simp)
      · cases hu
        exact ⟨rfl, Or.inl rfl⟩
    · intro lid hid q hmem
      simp only [update_receive, if_true, List.mem_append, List.mem_map,
        List.mem_singleton] at hmem
      rcases hmem with ⟨u, hu, he⟩ | hu
      · cases he
        exact ⟨rfl, u, hu, rfl, rfl⟩
      · exact absurd hu (by simp)
    · intro u hu
      simp only [update_receive, if_true, List.mem_append, List.mem_map]
      exact Or.inl ⟨u, hu, rfl⟩
  · by_cases hrich : richOk = true
    · subst hrich
      refine ⟨rfl, ?_, ?_, ?_, ?_⟩
      · simp only [update_receive, if_true, committedHeaderCount, List.countP_append]
        simp only [committedHeaderCount] at hcount
        simp [hcount, List.countP_cons]
      · intro hid q c hmem
        simp only [update_receive, if_true, List.mem_append, List.mem_map,
          List.mem_singleton] at hmem
        rcases hmem with ⟨u, _, hu⟩ | hu
        · exact absurd hu (by simp)
        · cases hu
          exact ⟨rfl, Or.inl rfl⟩
      · intro lid hid q hmem
        simp only [update_receive, if_true, List.mem_append, List.mem_map,
          List.mem_singleton] at hmem
        rcases hmem with ⟨u, hu, he⟩ | hu
        · cases he
          exact ⟨rfl, u, hu, rfl, rfl⟩
        · exact absurd hu (by simp)
      · intro u hu
        simp only [update_receive, if_true, List.mem_append, List.mem_map]
        exact Or.inl ⟨u, hu, rfl⟩
    · have hrich' : richOk = false := by
        cases richOk
        · rfl
        · exact absurd rfl hrich
      subst hrich'
      subst hdb
      refine ⟨rfl, ?_, ?_, ?_, ?_⟩
      · simp only [update_receive, Bool.false_eq_true, if_false, if_true,
          committedHeaderCount, List.countP_append]
        simp only [committedHeaderCount] at hcount
        simp [hcount, List.countP_cons]
      · intro hid q c hmem
        simp only [update_receive, Bool.false_eq_true, if_false, if_true,
          List.mem_append, List.mem_map, List.mem_cons, List.not_mem_nil,
          or_false] at hmem
        rcases hmem with ⟨u, _, hu⟩ | hu | hu
        · exact absurd hu (by simp)
        · cases hu
          exact ⟨rfl, Or.inl rfl⟩
        · cases hu
          exact ⟨rfl, Or.inr rfl⟩
      · intro lid hid q hmem
        simp only [update_receive, Bool.false_eq_true, if_false, if_true,
          List.mem_append, List.mem_map, List.mem_cons, List.not_mem_nil,
          or_false] at hmem
        rcases hmem with ⟨u, hu, he⟩ | hu | hu
        · cases he
          exact ⟨rfl, u, hu, rfl, rfl⟩
        · exact absurd hu (by simp)
        · exact absurd hu (by simp)
      · intro u hu
        simp only [update_receive, Bool.false_eq_true, if_false, if_true,
          List.mem_append, List.mem_map]
        exact Or.inl ⟨u, hu, rfl⟩

theorem mutasi_receive_valid_run
    (header : MutasiHeader) (userOutletId : String)
    (lines : List LineRow) (form : ℕ → Option String)
    (receiverName mutasiId : String) (richOk fallbackOk : Bool)
    (hu : userOutletId ≠ "")
    (hst : normalize_status header.status ≠ "RECEIVED") (hne : lines ≠ [])
    (hval : ∀ l ∈ lines, lineValid form l)
    (hdb : richOk = true ∨ fallbackOk = true) :
    mutasi_receive (some header) userOutletId userOutletId lines form receiverName
        mutasiId richOk fallbackOk
      = (ReceiveResult.success
          (if |(lines.map (submittedQty form)).sum - (lines.map LineRow.qty).sum| <
              (1 : ℚ) / 1000000 then "RECEIVED" else "PARTIAL"),
         (update_receive mutasiId (lines.map (plannedUpdate form))
            ⟨(if |(lines.map (submittedQty form)).sum - (lines.map LineRow.qty).sum| <
                (1 : ℚ) / 1000000 then "RECEIVED" else "PARTIAL"), some receiverName, true⟩
            ⟨(if |(lines.map (submittedQty form)).sum - (lines.map LineRow.qty).sum| <
                (1 : ℚ) / 1000000 then "RECEIVED" else "PARTIAL"), none, false⟩
            richOk fallbackOk).2) := by
  have hspec := update_receive_spec mutasiId (lines.map (plannedUpdate form))
    ⟨(if |(lines.map (submittedQty form)).sum - (lines.map LineRow.qty).sum| <
        (1 : ℚ) / 1000000 then "RECEIVED" else "PARTIAL"), some receiverName, true⟩
    ⟨(if |(lines.map (submittedQty form)).sum - (lines.map LineRow.qty).sum| <
        (1 : ℚ) / 1000000 then "RECEIVED" else "PARTIAL"), none, false⟩
    richOk fallbackOk hdb
  have hv := validateLines_all_valid hval
  have h1 := hspec.1
  simp only [one_div] at h1
  simp only [mutasi_receive, hv]
  simp [hu, hst, hne, h1]

/-- C1: a receive request that passes every per-line validation succeeds
with the derived header status — `RECEIVED` when the sum of submitted
received quantities differs from the sum of sent quantities by strictly
less than `1e-6` in absolute value, `PARTIAL` otherwise — and its write
trace contains exactly one committed header update; every header update in
the trace (committed or not) targets this header and carries exactly that
derived status. -/
theorem mutasi_receive_status_derivation
    (header : MutasiHeader) (userOutletId resolvedPenerimaId : String)
    (lines : List LineRow) (form : ℕ → Option String)
    (receiverName mutasiId : String) (richOk fallbackOk : Bool)
    (hu : userOutletId ≠ "") (hur : userOutletId = resolvedPenerimaId)
    (hst : normalize_status header.status ≠ "RECEIVED") (hne : lines ≠ [])
    (hval : ∀ l ∈ lines, lineValid form l)
    (hdb : richOk = true ∨ fallbackOk = true) :
    (mutasi_receive (some header) userOutletId resolvedPenerimaId lines form receiverName
        mutasiId richOk fallbackOk).1
      = ReceiveResult.success
          (if |(lines.map (submittedQty form)).sum - (lines.map LineRow.qty).sum| <
              (1 : ℚ) / 1000000 then "RECEIVED" else "PARTIAL")
    ∧ committedHeaderCount (mutasi_receive (some header) userOutletId resolvedPenerimaId
        lines form receiverName mutasiId richOk fallbackOk).2 = 1
    ∧ (∀ hid p c, DbOp.headerUpdate hid p c ∈ (mutasi_receive (some header) userOutletId
          resolvedPenerimaId lines form receiverName mutasiId richOk fallbackOk).2 →
        hid = mutasiId ∧ p.status =
          (if |(lines.map (submittedQty form)).sum - (lines.map LineRow.qty).sum| <
              (1 : ℚ) / 1000000 then "RECEIVED" else "PARTIAL")) := by
  subst hur
  have hrun := mutasi_receive_valid_run header userOutletId lines form receiverName
    mutasiId richOk fallbackOk hu hst hne hval hdb
  have hspec := update_receive_spec mutasiId (lines.map (plannedUpdate form))
    ⟨(if |(lines.map (submittedQty form)).sum - (lines.map LineRow.qty).sum| <
        (1 : ℚ) / 1000000 then "RECEIVED" else "PARTIAL"), some receiverName, true⟩
    ⟨(if |(lines.map (submittedQty form)).sum - (lines.map LineRow.qty).sum| <
        (1 : ℚ) / 1000000 then "RECEIVED" else "PARTIAL"), none, false⟩
    richOk fallbackOk hdb
  refine ⟨?_, ?_, ?_⟩
  · rw [hrun]
  · rw [hrun]
    exact hspec.2.1
  · intro hid p c hmem
    rw [hrun] at hmem
    rcases hspec.2.2.1 hid p c hmem with ⟨h1, h2⟩
    refine ⟨h1, ?_⟩
    rcases h2 with rfl | rfl <;> rfl

/-- Witness for C1: sent quantities `[10, 5]` with submitted received
quantities `[10, 3]` succeed with status `PARTIAL` and exactly one committed
header write. -/
theorem mutasi_receive_status_derivation_witness :
    (mutasi_receive (some ⟨"SENT", none, none⟩) "O1" "O1"
        [⟨some 1, 10, 0⟩, ⟨some 2, 5, 0⟩]
        (fun i => if i = 1 then some "10" else some "3") "r" "M1" true true).1
      = ReceiveResult.success "PARTIAL"
    ∧ committedHeaderCount (mutasi_receive (some ⟨"SENT", none, none⟩) "O1" "O1"
        [⟨some 1, 10, 0⟩, ⟨some 2, 5, 0⟩]
        (fun i => if i = 1 then some "10" else some "3") "r" "M1" true true).2 = 1 := by
  have h := mutasi_receive_status_derivation ⟨"SENT", none, none⟩ "O1" "O1"
    [⟨some 1, 10, 0⟩, ⟨some 2, 5, 0⟩]
    (fun i => if i = 1 then some "10" else some "3") "r" "M1" true true
    (by decide) rfl (by decide) (by decide)
    (by
      intro l hl
      simp only [List.mem_cons, List.not_mem_nil, or_false] at hl
      rcases hl with rfl | rfl
      · exact ⟨1, rfl, by decide, by with_unfolding_all decide, by with_unfolding_all decide⟩
      · exact ⟨2, rfl, by decide, by with_unfolding_all decide, by with_unfolding_all decide⟩)
    (Or.inl rfl)
  refine ⟨?_, h.2.1⟩
  have h1 := h.1
  rw [if_neg (by with_unfolding_all decide)] at h1
  exact h1

/-- C8 as stated is false: a line whose submitted received quantity `5`
equals its stored `qty_received` of `5` — no change — still gets an
individual line-table update in the committed trace. -/
theorem mutasi_receive_unchanged_line_counterexample :
    parse_decimal (some "5") = (5 : ℚ)
    ∧ ([(⟨some 1, 10, 5⟩ : LineRow)].map LineRow.qty_received) = [(5 : ℚ)]
    ∧ (mutasi_receive (some ⟨"SENT", none, none⟩) "O1" "O1" [⟨some 1, 10, 5⟩]
        (fun i => if i = 1 then some "5" else none) "r" "M1" true true).2
      = [DbOp.lineUpdate 1 "M1" 5,
         DbOp.headerUpdate "M1" ⟨"PARTIAL", some "r", true⟩ true] := by
  with_unfolding_all decide

/-- C8 (amended): during a committed reconciliation an individual line-table
update is issued for every line that passes validation — whether or not its
received quantity changed — and every line update in the trace is scoped by
both that line's id and this mutation's header id, so no row of a different
header is ever modified. -/
theorem mutasi_receive_line_update_scope
    (header : MutasiHeader) (userOutletId resolvedPenerimaId : String)
    (lines : List LineRow) (form : ℕ → Option String)
    (receiverName mutasiId : String) (richOk fallbackOk : Bool)
    (hu : userOutletId ≠ "") (hur : userOutletId = resolvedPenerimaId)
    (hst : normalize_status header.status ≠ "RECEIVED") (hne : lines ≠ [])
    (hval : ∀ l ∈ lines, lineValid form l)
    (hdb : richOk = true ∨ fallbackOk = true) :
    (∀ lid hid q, DbOp.lineUpdate lid hid q ∈ (mutasi_receive (some header) userOutletId
          resolvedPenerimaId lines form receiverName mutasiId richOk fallbackOk).2 →
        hid = mutasiId ∧ ∃ l ∈ lines, l.id = some lid ∧ q = parse_decimal (form lid))
    ∧ (∀ l ∈ lines, ∀ lid, l.id = some lid →
        DbOp.lineUpdate lid mutasiId (parse_decimal (form lid)) ∈
          (mutasi_receive (some header) userOutletId resolvedPenerimaId lines form
            receiverName mutasiId richOk fallbackOk).2) := by
  subst hur
  have hrun := mutasi_receive_valid_run header userOutletId lines form receiverName
    mutasiId richOk fallbackOk hu hst hne hval hdb
  have hspec := update_receive_spec mutasiId (lines.map (plannedUpdate form))
    ⟨(if |(lines.map (submittedQty form)).sum - (lines.map LineRow.qty).sum| <
        (1 : ℚ) / 1000000 then "RECEIVED" else "PARTIAL"), some receiverName, true⟩
    ⟨(if |(lines.map (submittedQty form)).sum - (lines.map LineRow.qty).sum| <
        (1 : ℚ) / 1000000 then "RECEIVED" else "PARTIAL"), none, false⟩
    richOk fallbackOk hdb
  constructor
  · intro lid hid q hmem
    rw [hrun] at hmem
    rcases hspec.2.2.2.1 lid hid q hmem with ⟨h1, u, hu₂, hid₂, hq⟩
    rcases List.mem_map.1 hu₂ with ⟨l, hl, rfl⟩
    obtain ⟨lid₀, hlid₀, -, -, -⟩ := hval l hl
    refine ⟨h1, l, hl, ?_, ?_⟩
    · rw [hlid₀]
      simp only [plannedUpdate, hlid₀, Option.getD_some] at hid₂
      rw [hid₂]
    · simp only [plannedUpdate, hlid₀, Option.getD_some] at hid₂ hq
      rw [← hq, hid₂]
  · intro l hl lid hlid
    rw [hrun]
    have hmem := hspec.2.2.2.2 (plannedUpdate form l) (List.mem_map.2 ⟨l, hl, rfl⟩)
    simpa only [plannedUpdate, hlid, Option.getD_some] using hmem

/-! ## Effects of the login and refresh phases -/

theorem login_phase_effects (times : EsbTimes) (env : EsbEnv) (st₁ : EsbState)
    (target : Option TargetKind) (reads refreshes : ℕ) :
    (login_phase times env st₁ target reads refreshes).2.refreshCalls = refreshes
    ∧ ((st₁.username = "" ∨ st₁.password = "") →
        login_phase times env st₁ target reads refreshes
          = (Except.error EsbError.credsNotConfigured, ⟨reads, refreshes, 0, 0⟩))
    ∧ (st₁.username ≠ "" → st₁.password ≠ "" →
        (login_phase times env st₁ target reads refreshes).2.loginCalls = 1) := by
  refine ⟨?_, ?_, ?_⟩
  · by_cases h : st₁.username = "" ∨ st₁.password = ""
    · simp [login_phase, h]
    · cases hl : env.loginResult with
      | none => simp [login_phase, h, hl]
      | some sess =>
        cases ha : apply_session times env.now sess target st₁ with
        | ok sp => simp [login_phase, h, hl, ha]
        | error e => simp [login_phase, h, hl, ha]
  · intro h
    simp [login_phase, h]
  · intro h1 h2
    have h : ¬ (st₁.username = "" ∨ st₁.password = "") := by tauto
    cases hl : env.loginResult with
    | none => simp [login_phase, h, hl]
    | some sess =>
      cases ha : apply_session times env.now sess target st₁ with
      | ok sp => simp [login_phase, h, hl, ha]
      | error e => simp [login_phase, h, hl, ha]

theorem refresh_phase_effects (times : EsbTimes) (env : EsbEnv) (st₁ : EsbState)
    (target : Option TargetKind) (reads : ℕ) :
    (refresh_phase times env st₁ target reads).2.refreshCalls = 1
    ∧ (∀ sess, env.refreshResult = some sess → sess.access_token ≠ "" →
        (refresh_phase times env st₁ target reads).2.loginCalls = 0
        ∧ ∃ st₂, (refresh_phase times env st₁ target reads).1 = Except.ok st₂
            ∧ st₂.token = sess.access_token)
    ∧ (env.refreshResult = none →
        refresh_phase times env st₁ target reads
          = login_phase times env st₁ target reads 1) := by
  refine ⟨?_, ?_, ?_⟩
  · cases hr : env.refreshResult with
    | none => simp [refresh_phase, hr, (login_phase_effects times env st₁ target reads 1).1]
    | some sess =>
      cases ha : apply_session times env.now sess target st₁ with
      | ok sp => simp [refresh_phase, hr, ha]
      | error e => simp [refresh_phase, hr, ha,
          (login_phase_effects times env st₁ target reads 1).1]
  · intro sess hr hne
    have ha : apply_session times env.now sess target st₁
        = Except.ok
            ({ st₁ with
                access_token := sess.access_token
                refresh_token :=
                  if sess.refresh_token ≠ "" then sess.refresh_token else st₁.refresh_token
                company_code :=
                  if sess.company_code ≠ "" then sess.company_code else st₁.company_code
                company_name :=
                  if sess.company_name ≠ "" then sess.company_name else st₁.company_name
                token := sess.access_token
                token_expiry := env.now + access_valid_sec times
                token_timestamp_epoch := env.now },
              if target.isSome then 1 else 0) := by
      simp [apply_session, hne]
    refine ⟨?_, ?_⟩
    · simp [refresh_phase, hr, ha]
    · simp only [refresh_phase, hr, ha]
      exact ⟨_, rfl, rfl⟩
  · intro hr
    simp [refresh_phase, hr]

/-! ## C4: a fresh token performs no auth-network call -/

/-- C4: with `force_login = false`, a truthy in-memory token that has not
reached `token_expiry` makes `_ensure_access_token` a strict no-op (state
unchanged, zero calls of any kind); and when the in-memory shortcut misses
but the stored access token's age is known, nonnegative, and strictly below
`access_ttl - buffer`, the call issues no refresh and no login call and
installs exactly the previously stored access token as the current token. -/
theorem ensure_access_token_fresh_no_network (times : EsbTimes) (env : EsbEnv)
    (st : EsbState) :
    (st.token ≠ "" → env.now < st.token_expiry →
      ensure_access_token times env st false = (Except.ok st, EsbEffects.zero))
    ∧ (¬ (st.token ≠ "" ∧ env.now < st.token_expiry) →
        stored_access_token env st ≠ "" →
        (mergedState env st).token_timestamp_epoch ≠ 0 →
        0 ≤ token_age env st → token_age env st < access_valid_sec times →
        (ensure_access_token times env st false).2.refreshCalls = 0
        ∧ (ensure_access_token times env st false).2.loginCalls = 0
        ∧ (ensure_access_token times env st false).1
            = Except.ok
                { mergedState env st with
                    token := stored_access_token env st
                    token_expiry :=
                      env.now + max (access_valid_sec times - token_age env st) 0 }) := by
  constructor
  · intro h1 h2
    simp only [ensure_access_token]
    rw [if_pos ⟨by simp, h1, h2⟩]
  · intro hnf h2 h3 h4 h5
    simp only [ensure_access_token]
    rw [if_neg (fun h => hnf h.2), if_pos ⟨by simp, h2, h3, h4, h5⟩]
    exact ⟨rfl, rfl, rfl⟩

/-- Witness for C4: both branches at concrete inputs — an in-memory fresh
token, and a cold instance adopting the sheet-stored token of age 100
seconds (window 3300 seconds) without any refresh or login call. -/
theorem ensure_access_token_fresh_no_network_witness :
    ensure_access_token ⟨3600, 300, 86400⟩
        ⟨1000, true, some ⟨"u", "p", "", "", "TOKSHEET", "RTOK", 900⟩, none, none, none⟩
        ⟨"", "", "", "", "T0", 2000, "T0", "", 900, false⟩ false
      = (Except.ok ⟨"", "", "", "", "T0", 2000, "T0", "", 900, false⟩, EsbEffects.zero)
    ∧ (ensure_access_token ⟨3600, 300, 86400⟩
        ⟨1000, true, some ⟨"u", "p", "", "", "TOKSHEET", "RTOK", 900⟩, none, none, none⟩
        ⟨"", "", "", "", "", 0, "", "", 0, false⟩ false).2.refreshCalls = 0
    ∧ (ensure_access_token ⟨3600, 300, 86400⟩
        ⟨1000, true, some ⟨"u", "p", "", "", "TOKSHEET", "RTOK", 900⟩, none, none, none⟩
        ⟨"", "", "", "", "", 0, "", "", 0, false⟩ false).2.loginCalls = 0 :=
  have h₁ := (ensure_access_token_fresh_no_network ⟨3600, 300, 86400⟩
    ⟨1000, true, some ⟨"u", "p", "", "", "TOKSHEET", "RTOK", 900⟩, none, none, none⟩
    ⟨"", "", "", "", "T0", 2000, "T0", "", 900, false⟩).1
    (by decide) (by with_unfolding_all decide)
  have h₂ := (ensure_access_token_fresh_no_network ⟨3600, 300, 86400⟩
    ⟨1000, true, some ⟨"u", "p", "", "", "TOKSHEET", "RTOK", 900⟩, none, none, none⟩
    ⟨"", "", "", "", "", 0, "", "", 0, false⟩).2
    (by simp) (by with_unfolding_all decide) (by with_unfolding_all decide)
    (by with_unfolding_all decide) (by with_unfolding_all decide)
  ⟨h₁, h₂.1, h₂.2.1⟩

/-! ## C5: the stale-but-refreshable path -/

/-- C5: with `force_login = false`, when the in-memory shortcut and the
stored-token reuse shortcut both miss but a refresh token exists and the
token age is unknown or below `refresh_ttl_sec`, the engine runs the
refresh phase: exactly one `/auth/refresh` call is issued; if the refresh
succeeds no login call is made and the refreshed token is installed; if the
refresh request fails, the failure is swallowed and the outcome is exactly
the login phase's outcome (a login call when credentials are present, the
configuration error otherwise — never a refresh error). -/
theorem ensure_access_token_refresh_path (times : EsbTimes) (env : EsbEnv)
    (st : EsbState)
    (h1 : ¬ (st.token ≠ "" ∧ env.now < st.token_expiry))
    (h2 : ¬ (stored_access_token env st ≠ "" ∧
        (mergedState env st).token_timestamp_epoch ≠ 0 ∧
        0 ≤ token_age env st ∧ token_age env st < access_valid_sec times))
    (h3 : (mergedState env st).refresh_token ≠ "")
    (h4 : (mergedState env st).token_timestamp_epoch = 0 ∨
        token_age env st < (times.refresh_ttl_sec : ℚ)) :
    ensure_access_token times env st false
      = refresh_phase times env (mergedState env st) (loadAndMerge env st).2
          (if env.storeConfigured then 1 else 0)
    ∧ (ensure_access_token times env st false).2.refreshCalls = 1
    ∧ (∀ sess, env.refreshResult = some sess → sess.access_token ≠ "" →
        (ensure_access_token times env st false).2.loginCalls = 0
        ∧ ∃ st₂, (ensure_access_token times env st false).1 = Except.ok st₂
            ∧ st₂.token = sess.access_token)
    ∧ (env.refreshResult = none →
        ensure_access_token times env st false
          = login_phase times env (mergedState env st) (loadAndMerge env st).2
              (if env.storeConfigured then 1 else 0) 1) := by
  have hstep : ensure_access_token times env st false
      = refresh_phase times env (mergedState env st) (loadAndMerge env st).2
          (if env.storeConfigured then 1 else 0) := by
    simp only [ensure_access_token]
    rw [if_neg (fun h => h1 h.2), if_neg (fun h => h2 h.2), if_pos ⟨by simp, h3, h4⟩]
  have heff := refresh_phase_effects times env (mergedState env st)
    (loadAndMerge env st).2 (if env.storeConfigured then 1 else 0)
  refine ⟨hstep, ?_, ?_, ?_⟩
  · rw [hstep]
    exact heff.1
  · intro sess hr hne
    rw [hstep]
    exact heff.2.1 sess hr hne
  · intro hr
    rw [hstep]
    exact heff.2.2 hr

/-- Witness for C5: a cold state whose sheet-stored token is 9100 seconds
old (outside the 3300-second access window, inside the 86400-second refresh
window) with a successful refresh: one refresh call, no login call. -/
theorem ensure_access_token_refresh_path_witness :
    (ensure_access_token ⟨3600, 300, 86400⟩
        ⟨10000, true, some ⟨"u", "p", "", "", "OLDTOK", "RT", 900⟩, none,
          some ⟨"NEWTOK", "NR", "", ""⟩, none⟩
        ⟨"", "", "", "", "", 0, "", "", 0, false⟩ false).2.refreshCalls = 1
    ∧ (ensure_access_token ⟨3600, 300, 86400⟩
        ⟨10000, true, some ⟨"u", "p", "", "", "OLDTOK", "RT", 900⟩, none,
          some ⟨"NEWTOK", "NR", "", ""⟩, none⟩
        ⟨"", "", "", "", "", 0, "", "", 0, false⟩ false).2.loginCalls = 0 :=
  have h := ensure_access_token_refresh_path ⟨3600, 300, 86400⟩
    ⟨10000, true, some ⟨"u", "p", "", "", "OLDTOK", "RT", 900⟩, none,
      some ⟨"NEWTOK", "NR", "", ""⟩, none⟩
    ⟨"", "", "", "", "", 0, "", "", 0, false⟩
    (by simp) (by with_unfolding_all decide) (by with_unfolding_all decide)
    (Or.inr (by with_unfolding_all decide))
  ⟨h.2.1, (h.2.2.1 ⟨"NEWTOK", "NR", "", ""⟩ rfl (by decide)).1⟩

/-! ## C6: `force_login` always performs a real login -/

/-- C6: with `force_login = true` every shortcut is bypassed — the outcome
is exactly the login phase for every state and environment: no refresh call
is ever made; when the merged username and password are present exactly one
`/auth/login` call is issued; when either is absent the call fails with the
configuration error and no login call is made. -/
theorem ensure_access_token_force_login (times : EsbTimes) (env : EsbEnv)
    (st : EsbState) :
    ensure_access_token times env st true
      = login_phase times env (mergedState env st) (loadAndMerge env st).2
          (if env.storeConfigured then 1 else 0) 0
    ∧ (ensure_access_token times env st true).2.refreshCalls = 0
    ∧ ((mergedState env st).username ≠ "" → (mergedState env st).password ≠ "" →
        (ensure_access_token times env st true).2.loginCalls = 1)
    ∧ (((mergedState env st).username = "" ∨ (mergedState env st).password = "") →
        (ensure_access_token times env st true).1 = Except.error EsbError.credsNotConfigured
        ∧ (ensure_access_token times env st true).2.loginCalls = 0) := by
  have hstep : ensure_access_token times env st true
      = login_phase times env (mergedState env st) (loadAndMerge env st).2
          (if env.storeConfigured then 1 else 0) 0 := by
    simp only [ensure_access_token]
    rw [if_neg (fun h => h.1 trivial), if_neg (fun h => h.1 trivial),
      if_neg (fun h => h.1 trivial)]
  have heff := login_phase_effects times env (mergedState env st)
    (loadAndMerge env st).2 (if env.storeConfigured then 1 else 0) 0
  refine ⟨hstep, ?_, ?_, ?_⟩
  · rw [hstep]
    exact heff.1
  · intro hu hp
    rw [hstep]
    exact heff.2.2 hu hp
  · intro h
    rw [hstep, heff.2.1 h]
    exact ⟨rfl, rfl⟩

/-- Witness for C6: even with a perfectly fresh in-memory and stored token,
`force_login = true` issues exactly one login call and no refresh call. -/
theorem ensure_access_token_force_login_witness :
    (ensure_access_token ⟨3600, 300, 86400⟩
        ⟨1000, true, some ⟨"u", "p", "", "", "TOKSHEET", "RTOK", 900⟩, none, none,
          some ⟨"LOGTOK", "LR", "", ""⟩⟩
        ⟨"", "", "", "", "T0", 2000, "T0", "RT", 900, false⟩ true).2.loginCalls = 1
    ∧ (ensure_access_token ⟨3600, 300, 86400⟩
        ⟨1000, true, some ⟨"u", "p", "", "", "TOKSHEET", "RTOK", 900⟩, none, none,
          some ⟨"LOGTOK", "LR", "", ""⟩⟩
        ⟨"", "", "", "", "T0", 2000, "T0", "RT", 900, false⟩ true).2.refreshCalls = 0 :=
  have h := ensure_access_token_force_login ⟨3600, 300, 86400⟩
    ⟨1000, true, some ⟨"u", "p", "", "", "TOKSHEET", "RTOK", 900⟩, none, none,
      some ⟨"LOGTOK", "LR", "", ""⟩⟩
    ⟨"", "", "", "", "T0", 2000, "T0", "RT", 900, false⟩
  ⟨h.2.2.1 (by with_unfolding_all decide) (by with_unfolding_all decide), h.2.1⟩

/-- Witness for C8 (amended): the unchanged line of the counterexample still
receives a header-scoped line update. -/
theorem mutasi_receive_line_update_scope_witness :
    DbOp.lineUpdate 1 "M1" (parse_decimal (some "5")) ∈
      (mutasi_receive (some ⟨"SENT", none, none⟩) "O1" "O1" [⟨some 1, 10, 5⟩]
        (fun i => if i = 1 then some "5" else none) "r" "M1" true true).2 := by
  have h := mutasi_receive_line_update_scope ⟨"SENT", none, none⟩ "O1" "O1"
    [⟨some 1, 10, 5⟩] (fun i => if i = 1 then some "5" else none) "r" "M1" true true
    (by decide) rfl (by decide) (by decide)
    (by
      intro l hl
      simp only [List.mem_cons, List.not_mem_nil, or_false] at hl
      subst hl
      exact ⟨1, rfl, by decide, by with_unfolding_all decide, by with_unfolding_all decide⟩)
    (Or.inl rfl)
  exact h.2 ⟨some 1, 10, 5⟩ (List.mem_cons_self _ _) 1 rfl

/-! ## C9: pagination of the product list -/

theorem buildProducts_length (detail : ℕ → EsbDetail) (l : List EsbItem)
    (h : ∀ it ∈ l, it.productID ≠ 0) :
    (buildProducts detail l).length = l.length := by
  induction l with
  | nil => rfl
  | cons a rest ih =>
    have ha := h a (List.mem_cons_self _ _)
    simp only [buildProducts] at ih ⊢
    simp [List.filterMap_cons, ha, ih (fun it hit => h it (List.mem_cons_of_mem _ hit))]

theorem fetchPages_run (pages : ℕ → List EsbItem) (detail : ℕ → EsbDetail) (limit : ℕ)
    (hlim : 0 < limit) :
    ∀ k fuel page acc, k + 1 ≤ fuel →
      (∀ i, i < k → (pages (page + i)).length = limit) →
      (∀ i, i ≤ k → ∀ it ∈ pages (page + i), it.productID ≠ 0) →
      pages (page + k) ≠ [] →
      (pages (page + k)).length < limit →
      (fetchPages pages detail limit fuel page acc).2 = k + 1
      ∧ (fetchPages pages detail limit fuel page acc).1.length
          = acc.length + k * limit + (pages (page + k)).length := by
  intro k
  induction k with
  | zero =>
    intro fuel page acc hfuel hfull hids hne hshort
    match fuel, hfuel with
    | fuel + 1, _ =>
      rw [Nat.add_zero] at hne hshort
      have hb : (buildProducts detail (pages page)).length = (pages page).length :=
        buildProducts_length detail (pages page)
          (fun it hit => hids 0 (Nat.le_refl 0) it (by rwa [Nat.add_zero]))
      simp [fetchPages, hne, hshort, hb]
  | succ k ih =>
    intro fuel page acc hfuel hfull hids hne hshort
    match fuel, hfuel with
    | fuel + 1, hf =>
      have hlen0 : (pages page).length = limit := by
        have := hfull 0 (Nat.succ_pos k)
        rwa [Nat.add_zero] at this
      have hne0 : pages page ≠ [] := by
        intro e
        rw [e] at hlen0
        simp at hlen0
        omega
      have hnotshort : ¬ (pages page).length < limit := by omega
      have hb : (buildProducts detail (pages page)).length = (pages page).length :=
        buildProducts_length detail (pages page)
          (fun it hit => hids 0 (Nat.zero_le _) it (by rwa [Nat.add_zero]))
      have hrec := ih fuel (page + 1) (acc ++ buildProducts detail (pages page))
        (by omega)
        (fun i hi => by
          have := hfull (i + 1) (by omega)
          rwa [show page + (i + 1) = page + 1 + i by omega] at this)
        (fun i hi it hit => by
          refine hids (i + 1) (by omega) it ?_
          rwa [show page + (i + 1) = page + 1 + i by omega])
        (by rwa [show page + 1 + k = page + (k + 1) by omega])
        (by rwa [show page + 1 + k = page + (k + 1) by omega])
      have hunf : fetchPages pages detail limit (fuel + 1) page acc
          = ((fetchPages pages detail limit fuel (page + 1)
              (acc ++ buildProducts detail (pages page))).1,
             (fetchPages pages detail limit fuel (page + 1)
              (acc ++ buildProducts detail (pages page))).2 + 1) := by
        simp [fetchPages, hne0, hnotshort]
      rw [hunf]
      refine ⟨by rw [hrec.1], ?_⟩
      rw [hrec.2, show page + 1 + k = page + (k + 1) by omega]
      simp only [List.length_append, hb, hlen0, Nat.succ_mul]
      ring

/-- C9: against an endpoint that serves `k` pages of exactly `limit` items
followed by one final page of `r` items (`0 < r < limit`, every item with a
truthy product id), a cold-cache `fetch_all_products` issues exactly
`k + 1 = ceil(total/limit)` page requests — stopping at the first short
page — and returns all `total = k*limit + r` items. -/
theorem fetch_all_products_pagination (k r limit fuel : ℕ) (detail : ℕ → EsbDetail)
    (now : ℚ) (hr : 0 < r) (hrl : r < limit) (hfuel : k + 1 ≤ fuel) :
    (fetch_all_products (scenarioPages k r limit) detail limit [] 0 now fuel).2 = k + 1
    ∧ (k * limit + r + limit - 1) / limit = k + 1
    ∧ (fetch_all_products (scenarioPages k r limit) detail limit [] 0 now fuel).1.length
        = k * limit + r := by
  have hlim : 0 < limit := lt_trans hr hrl
  have hlast : scenarioPages k r limit (1 + k)
      = (List.range r).map fun i => ⟨k * limit + i + 1, "", ""⟩ := by
    have h1 : ¬ (1 ≤ 1 + k ∧ 1 + k ≤ k) := by omega
    have h2 : 1 + k = k + 1 := by omega
    simp [scenarioPages, h1, h2]
  have hfull : ∀ i, i < k → (scenarioPages k r limit (1 + i)).length = limit := by
    intro i hi
    have hc : 1 ≤ 1 + i ∧ 1 + i ≤ k := by omega
    simp [scenarioPages, hc]
  have hids : ∀ i, i ≤ k → ∀ it ∈ scenarioPages k r limit (1 + i), it.productID ≠ 0 := by
    intro i hi it hit
    simp only [scenarioPages] at hit
    split_ifs at hit
    · rcases List.mem_map.1 hit with ⟨j, hj, rfl⟩
      simp
    · rcases List.mem_map.1 hit with ⟨j, hj, rfl⟩
      simp
    · cases hit
  have hne : scenarioPages k r limit (1 + k) ≠ [] := by
    rw [hlast]
    intro e
    have : r = 0 := by simpa using congrArg List.length e
    omega
  have hshort : (scenarioPages k r limit (1 + k)).length < limit := by
    rw [hlast]
    simpa using hrl
  have hrun := fetchPages_run (scenarioPages k r limit) detail limit hlim k fuel 1 []
    hfuel hfull hids hne hshort
  have hcold : fetch_all_products (scenarioPages k r limit) detail limit [] 0 now fuel
      = fetchPages (scenarioPages k r limit) detail limit fuel 1 [] := by
    simp [fetch_all_products]
  have hceil : (k * limit + r + limit - 1) / limit = k + 1 := by
    have hA : k * limit + r + limit - 1 = (r + limit - 1) + k * limit := by
      obtain ⟨m, hm⟩ : ∃ m, k * limit = m := ⟨_, rfl⟩
      rw [hm]
      omega
    rw [hA, Nat.add_mul_div_right _ _ hlim]
    have h1 : (r + limit - 1) / limit = 1 :=
      Nat.div_eq_of_lt_le (by omega) (by omega)
    omega
  refine ⟨?_, hceil, ?_⟩
  · rw [hcold, hrun.1]
  · rw [hcold, hrun.2, hlast]
    simp

/-- Witness for C9: two full pages of 3 plus a final page of 1 item — 3
requests (`ceil(7/3) = 3`) and 7 returned products. -/
theorem fetch_all_products_pagination_witness :
    (fetch_all_products (scenarioPages 2 1 3) (fun _ => ⟨"", 0⟩) 3 [] 0 0 4).2 = 3
    ∧ (fetch_all_products (scenarioPages 2 1 3) (fun _ => ⟨"", 0⟩) 3 [] 0 0 4).1.length = 7 :=
  have h := fetch_all_products_pagination 2 1 3 4 (fun _ => ⟨"", 0⟩) 0
    (by decide) (by decide) (by decide)
  ⟨h.1, h.2.2⟩

end HWG
